import Mathlib

/-!
Verification of the PLTN simulator firmware (ESP-C power-generation node and
the ESP-E/F/G visualizer nodes), shallowly embedded from the C++ sources.

Conventions of the embedding:
* Arduino digital levels are Bool with LOW = false and HIGH = true, so the
  relay constants are RELAY_ON = false (LOW) and RELAY_OFF = true (HIGH).
* Hardware writes (digitalWrite, ledcWrite) are recorded as a list of Act
  values in program order instead of mutating pins.
* millis() is a monotone Nat clock passed to each loop step as the parameter
  now; elapsed-time checks use Nat subtraction (the firmware runs far below
  the 32-bit wrap of millis).
* C int variables that only ever hold small non-negative values
  (power level, sequence step, timers) are Nat; the rod positions and pump
  status come from String toInt casts and are Int.
-/

namespace PLTN

/-- A recorded hardware write: digitalWrite pin level, or ledcWrite channel duty. -/
inductive Act where
  | digitalWrite (pin : Nat) (level : Bool)
  | ledcWrite (channel : Nat) (value : Nat)
deriving DecidableEq, Repr

/-- RELAY_ON is the electrical level LOW. -/
def RELAY_ON : Bool := false

/-- RELAY_OFF is the electrical level HIGH. -/
def RELAY_OFF : Bool := true

def BUZZER_PIN : Nat := 21
def STEAM_HUMID_1_PIN : Nat := 19
def STEAM_HUMID_2_PIN : Nat := 18
def CONDENSOR_HUMID_PIN : Nat := 5
def COOLTOWER_HUMID_1_PIN : Nat := 2
def COOLTOWER_HUMID_2_PIN : Nat := 27

def PWM_CH_STEAM_FAN : Nat := 0
def PWM_CH_TURBINE : Nat := 1
def PWM_CH_CONDENSOR : Nat := 2
def PWM_CH_COOLTOWER : Nat := 3

/-- setMotorPwm maps a speed percentage 0..100 to a duty 0..255 with the
Arduino map function (integer arithmetic) and writes it to the channel. -/
def setMotorPwmAct (channel speed : Nat) : Act :=
  Act.ledcWrite channel (speed * 255 / 100)

/-- The threshold-to-power-level derivation at the top of the ESP-C loop
(main.cpp lines 147..153): rod2_pos below 21 or rod3_pos below 16 gives
level 0; rod2_pos at least 41 and rod3_pos at least 31 gives level 2;
anything else gives level 1. -/
def powerLevelOf (rod2 rod3 : Int) : Nat :=
  if rod2 < 21 ∨ rod3 < 16 then 0
  else if 41 ≤ rod2 ∧ 31 ≤ rod3 then 2
  else 1

/-! ## Frame decoder (recvDataFromESP_B, main.cpp lines 85..94)

The static locals recvInProgress and ndx, the buffer receivedChars and the
flag newData form the decoder state.  The buffer is modelled as the list of
characters written in the current frame (ndx equals its length); on the end
marker the written prefix becomes the delivered payload (the C code
terminates it with a NUL at index ndx, so characters beyond it are
invisible) and ndx returns to 0. -/

def MAX_DATA_LENGTH : Nat := 50

def START_MARKER : Char := '<'

def END_MARKER : Char := '>'

/-- Decoder state: the static locals of recvDataFromESP_B together with the
globals receivedChars and newData. -/
structure RecvState where
  recvInProgress : Bool
  buf : List Char
  payload : List Char
  newData : Bool
deriving DecidableEq, Repr

/-- Process one received byte (the body of the while loop in
recvDataFromESP_B, which only runs while newData is false). -/
def recvByte (s : RecvState) (rc : Char) : RecvState :=
  if s.recvInProgress then
    if rc ≠ END_MARKER then
      if s.buf.length < MAX_DATA_LENGTH - 1 then { s with buf := s.buf ++ [rc] } else s
    else
      { s with payload := s.buf, buf := [], recvInProgress := false, newData := true }
  else if rc = START_MARKER then { s with recvInProgress := true }
  else s

/-- One call of recvDataFromESP_B with the given bytes available: bytes are
consumed while newData is false; once a frame completes the remaining bytes
stay in the serial FIFO (they are simply not consumed here). -/
def recvBytes : RecvState → List Char → RecvState
  | s, [] => s
  | s, c :: cs => if s.newData then s else recvBytes (recvByte s c) cs

/-- Power-on decoder state: not inside a frame, empty buffer, no message. -/
def recvInit : RecvState := ⟨false, [], [], false⟩

/-! ## Message parser (parseDataFromESP_B, main.cpp lines 96..112)

String values go through Arduino String toInt, which is C atol: skip
leading whitespace, an optional sign, then a run of decimal digits; no
digits gives 0.  strtok with separator ";" yields the maximal non-empty
runs between semicolons.  Each token is split at its first colon. -/

/-- C isspace over the ASCII whitespace characters, as used by atol. -/
def isSpaceC (c : Char) : Bool :=
  c = ' ' || c = '\t' || c = '\n' || c = '\x0b' || c = '\x0c' || c = '\r'

/-- C isdigit: an ASCII decimal digit. -/
def isDigitC (c : Char) : Bool := 48 ≤ c.toNat && c.toNat ≤ 57

/-- Accumulate the leading run of decimal digits, stopping at the first
non-digit (the digit-consuming loop of atol). -/
def parseDigits : List Char → Int → Int
  | [], acc => acc
  | c :: cs, acc =>
      if isDigitC c then parseDigits cs (acc * 10 + ((c.toNat : Int) - 48)) else acc

/-- C atol, the body of Arduino String.toInt: whitespace, optional sign,
digits; anything malformed yields 0. -/
def atol (cs : List Char) : Int :=
  match cs.dropWhile isSpaceC with
  | [] => 0
  | c :: rest =>
      if c = '-' then - parseDigits rest 0
      else if c = '+' then parseDigits rest 0
      else parseDigits (c :: rest) 0

/-- strtok with separator ";": the maximal non-empty runs of non-semicolon
characters, in order. -/
def strtokAux : List Char → List Char → List (List Char)
  | [], acc => if acc = [] then [] else [acc.reverse]
  | c :: cs, acc =>
      if c = ';' then
        if acc = [] then strtokAux cs [] else acc.reverse :: strtokAux cs []
      else strtokAux cs (c :: acc)

def strtokens (cs : List Char) : List (List Char) := strtokAux cs []

/-- Split a token at its first colon (String indexOf then the two
substrings); none when the token has no colon. -/
def splitColon : List Char → Option (List Char × List Char)
  | [] => none
  | c :: cs =>
      if c = ':' then some ([], cs)
      else (splitColon cs).map (fun p => (c :: p.1, p.2))

/-- The two rod readings owned by the ESP-C parser. -/
structure Rods where
  rod2_pos : Int
  rod3_pos : Int
deriving DecidableEq, Repr

/-- Handle one strtok token: skip it when it has no colon, store the atol of
the value under a recognized key, ignore unrecognized keys. -/
def parseToken (r : Rods) (tok : List Char) : Rods :=
  match splitColon tok with
  | none => r
  | some (key, value) =>
      if key = "rod2".data then { r with rod2_pos := atol value }
      else if key = "rod3".data then { r with rod3_pos := atol value }
      else r

/-- The strtok loop of parseDataFromESP_B over a whole payload. -/
def parsePayload (r : Rods) (payload : List Char) : Rods :=
  (strtokens payload).foldl parseToken r

/-- parseDataFromESP_B: when a message is ready, parse the buffered payload
and clear the new-message flag; otherwise do nothing. -/
def parseDataFromESP_B (s : RecvState) (r : Rods) : RecvState × Rods :=
  if s.newData then ({ s with newData := false }, parsePayload r s.payload)
  else (s, r)

/-! ## Frame encoder (sendDataToEspD, main.cpp lines 228..235)

Serial print of an int renders it as decimal ASCII digits; natDecimal
models that rendering for the non-negative values the power level takes
(fuel-based recursion so that it evaluates by kernel reduction). -/

/-- The ASCII character of one decimal digit value. -/
def digitChar (d : Nat) : Char := Char.ofNat (48 + d)

def natDecimalAux : Nat → Nat → List Char
  | 0, _ => []
  | fuel + 1, n =>
      if n < 10 then [digitChar n]
      else natDecimalAux fuel (n / 10) ++ [digitChar (n % 10)]

/-- The decimal ASCII rendering of a non-negative integer, most significant
digit first, as produced by Arduino Serial print of an int. -/
def natDecimal (n : Nat) : List Char := natDecimalAux (n + 1) n

/-- The byte sequence written by sendDataToEspD for power level n:
start marker, the text pwr, a colon, the decimal value, end marker,
newline. -/
def sendDataToEspDBytes (n : Nat) : List Char :=
  START_MARKER :: "pwr:".data ++ natDecimal n ++ [END_MARKER, '\n']

/-- The key/value pairs a receiver on the same protocol extracts from a
payload: strtok tokens, first-colon split, atol on the value text. -/
def decodeKV (payload : List Char) : List (List Char × Int) :=
  (strtokens payload).filterMap
    (fun tok => (splitColon tok).map (fun p => (p.1, atol p.2)))

/-! ## The ESP-C sequencing state machine (main.cpp lines 44..58, 142..327)

One loopStep models the loop body from line 146 on (after recv and parse
have already refreshed rod2_pos and rod3_pos), at clock value now.  It
returns the new global state, the actuator writes issued in program order,
and the bytes written to Serial1. -/

inductive SystemState where
  | idle
  | startingUp
  | running
  | shuttingDown
deriving DecidableEq, Repr

def SEQUENCE_DELAY : Nat := 5000

def BUZZER_INTERVAL : Nat := 500

def UART_SEND_TO_D_INTERVAL : Nat := 500

/-- The mutable globals of the ESP-C sketch. -/
structure CState where
  currentState : SystemState
  currentPowerLevel : Nat
  previousPowerLevel : Nat
  rod2_pos : Int
  rod3_pos : Int
  stateTimer : Nat
  buzzerTimer : Nat
  sequence_step : Nat
  isBuzzerOn : Bool
  lastUartSendToD : Nat
deriving DecidableEq, Repr

/-- The writes of turnEverythingOff (lines 314..327): every relay to
RELAY_OFF, the buzzer pin LOW, every motor channel to duty 0. -/
def turnEverythingOffActs : List Act :=
  [Act.digitalWrite STEAM_HUMID_1_PIN RELAY_OFF,
   Act.digitalWrite STEAM_HUMID_2_PIN RELAY_OFF,
   Act.digitalWrite CONDENSOR_HUMID_PIN RELAY_OFF,
   Act.digitalWrite COOLTOWER_HUMID_1_PIN RELAY_OFF,
   Act.digitalWrite COOLTOWER_HUMID_2_PIN RELAY_OFF,
   Act.digitalWrite BUZZER_PIN false,
   setMotorPwmAct PWM_CH_STEAM_FAN 0,
   setMotorPwmAct PWM_CH_TURBINE 0,
   setMotorPwmAct PWM_CH_CONDENSOR 0,
   setMotorPwmAct PWM_CH_COOLTOWER 0]

/-- turnEverythingOff also clears the isBuzzerOn flag. -/
def turnEverythingOff (s : CState) : CState × List Act :=
  ({ s with isBuzzerOn := false }, turnEverythingOffActs)

/-- updateSystemOutputs (lines 288..312) as a function of the state and
power level it reads: nothing unless Running; the NORMAL profile for level
1, the MAKSIMAL profile for level 2, nothing for any other level. -/
def updateSystemOutputs (st : SystemState) (lvl : Nat) : List Act :=
  if st ≠ SystemState.running then []
  else if lvl = 1 then
    [Act.digitalWrite STEAM_HUMID_1_PIN RELAY_ON,
     Act.digitalWrite STEAM_HUMID_2_PIN RELAY_OFF,
     Act.digitalWrite CONDENSOR_HUMID_PIN RELAY_ON,
     Act.digitalWrite COOLTOWER_HUMID_1_PIN RELAY_ON,
     Act.digitalWrite COOLTOWER_HUMID_2_PIN RELAY_OFF,
     setMotorPwmAct PWM_CH_STEAM_FAN 50,
     setMotorPwmAct PWM_CH_TURBINE 40,
     setMotorPwmAct PWM_CH_CONDENSOR 60,
     setMotorPwmAct PWM_CH_COOLTOWER 60]
  else if lvl = 2 then
    [Act.digitalWrite STEAM_HUMID_1_PIN RELAY_ON,
     Act.digitalWrite STEAM_HUMID_2_PIN RELAY_ON,
     Act.digitalWrite CONDENSOR_HUMID_PIN RELAY_ON,
     Act.digitalWrite COOLTOWER_HUMID_1_PIN RELAY_ON,
     Act.digitalWrite COOLTOWER_HUMID_2_PIN RELAY_ON,
     setMotorPwmAct PWM_CH_STEAM_FAN 100,
     setMotorPwmAct PWM_CH_TURBINE 100,
     setMotorPwmAct PWM_CH_CONDENSOR 100,
     setMotorPwmAct PWM_CH_COOLTOWER 100]
  else []

/-- runStartupSequence (lines 239..264): one staged action selected by
sequence_step; step 4 also enters Running and immediately calls
updateSystemOutputs. -/
def runStartupSequence (s : CState) : CState × List Act :=
  match s.sequence_step with
  | 1 => (s, [Act.digitalWrite STEAM_HUMID_1_PIN RELAY_ON,
              setMotorPwmAct PWM_CH_STEAM_FAN 50])
  | 2 => (s, [setMotorPwmAct PWM_CH_TURBINE 40])
  | 3 => (s, [Act.digitalWrite CONDENSOR_HUMID_PIN RELAY_ON,
              setMotorPwmAct PWM_CH_CONDENSOR 60])
  | 4 =>
      ({ s with currentState := SystemState.running },
       [Act.digitalWrite COOLTOWER_HUMID_1_PIN RELAY_ON,
        setMotorPwmAct PWM_CH_COOLTOWER 60] ++
         updateSystemOutputs SystemState.running s.currentPowerLevel)
  | _ => (s, [])

/-- runShutdownSequence (lines 266..286): one staged de-actuation selected
by sequence_step; step 4 also returns to Idle. -/
def runShutdownSequence (s : CState) : CState × List Act :=
  match s.sequence_step with
  | 1 => (s, [])
  | 2 => (s, [setMotorPwmAct PWM_CH_TURBINE 0])
  | 3 => (s, [setMotorPwmAct PWM_CH_CONDENSOR 0])
  | 4 => ({ s with currentState := SystemState.idle }, [setMotorPwmAct PWM_CH_COOLTOWER 0])
  | _ => (s, [])

/-- Entry into ShuttingDown shared by the StartingUp and Running branches:
set the state, reset the step cursor and timer, de-actuate everything, then
run the first shutdown stage. -/
def enterShutdown (s : CState) (now : Nat) : CState × List Act :=
  let s1 : CState := { s with currentState := SystemState.shuttingDown,
                              sequence_step := 1, stateTimer := now }
  let r1 := turnEverythingOff s1
  let r2 := runShutdownSequence r1.1
  (r2.1, r1.2 ++ r2.2)

/-- The buzzer alarm logic inside the Running branch (lines 195..206). -/
def runningBuzzer (s : CState) (now : Nat) : CState × List Act :=
  if s.currentPowerLevel = 2 ∧ 70 ≤ s.rod2_pos ∧ 55 ≤ s.rod3_pos then
    if now - s.buzzerTimer > BUZZER_INTERVAL then
      ({ s with buzzerTimer := now, isBuzzerOn := !s.isBuzzerOn },
       [Act.digitalWrite BUZZER_PIN (!s.isBuzzerOn)])
    else (s, [])
  else
    if s.isBuzzerOn then
      ({ s with isBuzzerOn := false }, [Act.digitalWrite BUZZER_PIN false])
    else (s, [])

/-- The switch over currentState (lines 156..216), run after the power
level has been recomputed. -/
def stateMachineStep (s : CState) (now : Nat) : CState × List Act :=
  match s.currentState with
  | SystemState.idle =>
      if s.currentPowerLevel > 0 then
        runStartupSequence { s with currentState := SystemState.startingUp,
                                    sequence_step := 1, stateTimer := now }
      else (s, [])
  | SystemState.startingUp =>
      if s.currentPowerLevel = 0 then enterShutdown s now
      else if now - s.stateTimer > SEQUENCE_DELAY then
        runStartupSequence { s with sequence_step := s.sequence_step + 1, stateTimer := now }
      else (s, [])
  | SystemState.running =>
      if s.currentPowerLevel = 0 then enterShutdown s now
      else
        let a1 := if s.currentPowerLevel ≠ s.previousPowerLevel then
                    updateSystemOutputs s.currentState s.currentPowerLevel
                  else []
        let r2 := runningBuzzer s now
        (r2.1, a1 ++ r2.2)
  | SystemState.shuttingDown =>
      if now - s.stateTimer > SEQUENCE_DELAY then
        runShutdownSequence { s with sequence_step := s.sequence_step + 1, stateTimer := now }
      else (s, [])

/-- Lines 146..153: record the previous power level and rederive the
current one from the rod positions. -/
def preStep (s : CState) : CState :=
  { s with previousPowerLevel := s.currentPowerLevel,
           currentPowerLevel := powerLevelOf s.rod2_pos s.rod3_pos }

/-- The loop body from line 146 on: record the previous power level,
rederive the current one from the rod positions, run the state machine,
then the periodic send to ESP-D. -/
def loopStep (s0 : CState) (now : Nat) : CState × List Act × List Char :=
  let r := stateMachineStep (preStep s0) now
  if now - r.1.lastUartSendToD > UART_SEND_TO_D_INTERVAL then
    ({ r.1 with lastUartSendToD := now }, r.2,
     sendDataToEspDBytes r.1.currentPowerLevel)
  else (r.1, r.2, [])

/-! ## The ESP-E / ESP-F / ESP-G consumer-variant parsers

All three parseData functions strip the first and last character of the
frame (the markers) and then walk the ';'-separated pairs via indexOf.
Unlike strtok, indexOf-based splitting keeps empty segments, and the loop
only covers the segments terminated by a ';'.  ESP-E (key pump1) processes
every such segment; ESP-F (key pump2) returns on the first match; ESP-G
(key pump3) returns on the first match and, failing that, also examines
the trailing segment after the last ';'. -/

/-- Split on ';' keeping empty segments, exactly the segments the indexOf
loop walks plus the trailing remainder as the last element. -/
def splitSemiAll : List Char → List (List Char)
  | [] => [[]]
  | c :: cs =>
      let r := splitSemiAll cs
      if c = ';' then [] :: r
      else (c :: r.headD []) :: r.tail

/-- First-match scan used by the ESP-F and ESP-G loops: the atol of the
value of the first segment whose key (text before the first colon) is the
wanted one. -/
def scanKey (key : List Char) : List (List Char) → Option Int
  | [] => none
  | p :: ps =>
      match splitColon p with
      | some kv => if kv.1 = key then some (atol kv.2) else scanKey key ps
      | none => scanKey key ps

/-- ESP-E parseData on the marker-stripped payload: every ';'-terminated
segment is processed (last match wins) and the trailing segment is never
examined. -/
def espE_parseBody (st : Int) (data : List Char) : Int :=
  ((splitSemiAll data).dropLast).foldl
    (fun acc p =>
      match splitColon p with
      | some kv => if kv.1 = "pump1".data then atol kv.2 else acc
      | none => acc)
    st

/-- ESP-F parseData on the marker-stripped payload: return on the first
pump2 match among the ';'-terminated segments; the trailing segment is
never examined. -/
def espF_parseBody (st : Int) (data : List Char) : Int :=
  match scanKey "pump2".data ((splitSemiAll data).dropLast) with
  | some v => v
  | none => st

/-- ESP-G parseData on the marker-stripped payload: return on the first
pump3 match among the ';'-terminated segments, otherwise also split the
trailing segment and accept a pump3 match there. -/
def espG_parseBody (st : Int) (data : List Char) : Int :=
  match scanKey "pump3".data ((splitSemiAll data).dropLast) with
  | some v => v
  | none =>
      match splitColon ((splitSemiAll data).getLastD []) with
      | some kv => if kv.1 = "pump3".data then atol kv.2 else st
      | none => st

/-- ESP-E parseData on a full frame: drop the start and end markers, then
parse the body. -/
def espE_parseData (st : Int) (frame : List Char) : Int :=
  espE_parseBody st ((frame.drop 1).dropLast)

def espF_parseData (st : Int) (frame : List Char) : Int :=
  espF_parseBody st ((frame.drop 1).dropLast)

def espG_parseData (st : Int) (frame : List Char) : Int :=
  espG_parseBody st ((frame.drop 1).dropLast)

/-! ## The ESP-E animation sequencer (ESP_E main.cpp lines 119..188)

NUM_LEDS = 16, NUM_ANIMATION_BLOCKS = 4, LEDS_PER_BLOCK = 4.  One animTick
models the part of loop after parsing, at clock value now. -/

def NUM_LEDS : Nat := 16

def NUM_ANIMATION_BLOCKS : Nat := 4

def LEDS_PER_BLOCK : Nat := 4

/-- The brightness ramp across one animation block. -/
def brightnessLevels (j : Nat) : Nat := [10, 80, 150, 255].getD j 0

/-- The animation globals of the ESP-E sketch. -/
structure EState where
  pumpPrimaryStatus : Int
  masterPosition : Int
  lastAnimationTime : Nat
  animationSpeedDelay : Nat
deriving DecidableEq, Repr

/-- drawLedBlockToBuffer: write the brightness ramp at the four positions
of one block into the virtual canvas, wrapping modulo NUM_LEDS. -/
def drawLedBlockToBuffer (startPos : Nat) (buffer : Nat → Nat) : Nat → Nat :=
  (List.range LEDS_PER_BLOCK).foldl
    (fun b j => fun k => if k = (startPos + j) % NUM_LEDS then brightnessLevels j else b k)
    buffer

/-- One animation frame: a zeroed canvas with all four blocks drawn,
starting from the master position. -/
def renderFrame (pos : Int) : Nat → Nat :=
  (List.range NUM_ANIMATION_BLOCKS).foldl
    (fun b i => drawLedBlockToBuffer ((pos + i * LEDS_PER_BLOCK).emod NUM_LEDS).toNat b)
    (fun _ => 0)

/-- The delay selected by the status switch: 500 / 200 / 600 for the
starting / on / shutting-down statuses, and the previous delay when the
cast status matches no case. -/
def delayFor (s : EState) : Nat :=
  if s.pumpPrimaryStatus = 1 then 500
  else if s.pumpPrimaryStatus = 2 then 200
  else if s.pumpPrimaryStatus = 3 then 600
  else s.animationSpeedDelay

/-- The loop body after parsing: the status switch (with the off branch
returning early), the sentinel reset, and the timed animation frame. -/
def animTick (s : EState) (now : Nat) : EState × List Act :=
  if s.pumpPrimaryStatus = 0 then
    if s.masterPosition ≠ -1 then
      ({ s with masterPosition := -1 },
       (List.range NUM_LEDS).map (fun i => Act.ledcWrite i 0))
    else (s, [])
  else
    let s1 : EState := { s with animationSpeedDelay := delayFor s }
    let s2 : EState := if s1.masterPosition = -1 then { s1 with masterPosition := 0 } else s1
    if s2.animationSpeedDelay ≤ now - s2.lastAnimationTime then
      let buf := renderFrame s2.masterPosition
      let p := s2.masterPosition + 1
      ({ s2 with lastAnimationTime := now,
                 masterPosition := if (NUM_LEDS : Int) ≤ p then 0 else p },
       (List.range NUM_LEDS).map (fun i => Act.ledcWrite i (buf i)))
    else (s2, [])

end PLTN

-- ================= THEOREMS =================

namespace PLTN

/-- C1: the power level is a pure function of the two rod readings with the
low-OR / high-AND threshold structure, and the three spec scenarios hold. -/
theorem claim1_threshold_mode (rod2 rod3 : Int) :
    ((rod2 < 21 ∨ rod3 < 16) → powerLevelOf rod2 rod3 = 0) ∧
    (¬(rod2 < 21 ∨ rod3 < 16) → 41 ≤ rod2 ∧ 31 ≤ rod3 → powerLevelOf rod2 rod3 = 2) ∧
    (¬(rod2 < 21 ∨ rod3 < 16) → ¬(41 ≤ rod2 ∧ 31 ≤ rod3) → powerLevelOf rod2 rod3 = 1) ∧
    powerLevelOf 15 10 = 0 ∧ powerLevelOf 45 35 = 2 ∧ powerLevelOf 25 20 = 1 := by
  refine ⟨?_, ?_, ?_, by decide, by decide, by decide⟩
  · intro h
    unfold powerLevelOf
    rw [if_pos h]
  · intro h1 h2
    unfold powerLevelOf
    rw [if_neg h1, if_pos h2]
  · intro h1 h2
    unfold powerLevelOf
    rw [if_neg h1, if_neg h2]

/-- Witness for C1 at the concrete scenario inputs. -/
theorem claim1_threshold_mode_witness :
    powerLevelOf 15 10 = 0 ∧ powerLevelOf 45 35 = 2 := by
  refine ⟨(claim1_threshold_mode 15 10).1 ?_, ?_⟩
  · decide
  · exact ((claim1_threshold_mode 45 35).2.1 (by decide) (by decide))

/-! ### Frame-decoder lemmas -/

lemma recvBytes_of_newData (l : List Char) (s : RecvState) (h : s.newData = true) :
    recvBytes s l = s := by
  cases l with
  | nil => rfl
  | cons c cs => simp [recvBytes, h]

lemma recvByte_outside (s : RecvState) (c : Char)
    (h1 : s.recvInProgress = false) (h2 : c ≠ START_MARKER) : recvByte s c = s := by
  simp [recvByte, h1, h2]

lemma recvByte_full (s : RecvState) (c : Char)
    (h1 : s.recvInProgress = true) (h2 : c ≠ END_MARKER)
    (h3 : ¬ s.buf.length < MAX_DATA_LENGTH - 1) : recvByte s c = s := by
  simp [recvByte, h1, h2, h3]

lemma recvByte_append (s : RecvState) (c : Char)
    (h1 : s.recvInProgress = true) (h2 : c ≠ END_MARKER)
    (h3 : s.buf.length < MAX_DATA_LENGTH - 1) :
    recvByte s c = { s with buf := s.buf ++ [c] } := by
  simp [recvByte, h1, h2, h3]

lemma recvByte_inside_keeps (s : RecvState) (c : Char)
    (h1 : s.recvInProgress = true) (h2 : c ≠ END_MARKER) :
    (recvByte s c).recvInProgress = true ∧ (recvByte s c).newData = s.newData ∧
      (recvByte s c).payload = s.payload := by
  by_cases h3 : s.buf.length < MAX_DATA_LENGTH - 1
  · rw [recvByte_append s c h1 h2 h3]
    exact ⟨h1, rfl, rfl⟩
  · rw [recvByte_full s c h1 h2 h3]
    exact ⟨h1, rfl, rfl⟩

lemma recvBytes_open_end (bytes : List Char) : ∀ s : RecvState,
    s.newData = false → s.recvInProgress = true →
    (recvBytes s bytes).newData = true → ∃ j : Nat, bytes[j]? = some END_MARKER := by
  induction bytes with
  | nil =>
    intro s h1 _ h3
    rw [recvBytes, h1] at h3
    cases h3
  | cons c cs ih =>
    intro s h1 h2 h3
    by_cases hc : c = END_MARKER
    · exact ⟨0, by simp [hc]⟩
    · rw [recvBytes, h1] at h3
      simp only [Bool.false_eq_true, if_false] at h3
      obtain ⟨hp, hn, _⟩ := recvByte_inside_keeps s c h2 hc
      obtain ⟨j, hj⟩ := ih (recvByte s c) (hn.trans h1) hp h3
      exact ⟨j + 1, by simpa using hj⟩

lemma recvBytes_closed_markers (bytes : List Char) : ∀ s : RecvState,
    s.newData = false → s.recvInProgress = false →
    (recvBytes s bytes).newData = true →
    ∃ i j : Nat, i < j ∧ bytes[i]? = some START_MARKER ∧ bytes[j]? = some END_MARKER := by
  induction bytes with
  | nil =>
    intro s h1 _ h3
    rw [recvBytes, h1] at h3
    cases h3
  | cons c cs ih =>
    intro s h1 h2 h3
    rw [recvBytes, h1] at h3
    simp only [Bool.false_eq_true, if_false] at h3
    by_cases hc : c = START_MARKER
    · have hopen : (recvByte s c).recvInProgress = true ∧ (recvByte s c).newData = false := by
        simp [recvByte, h2, hc, h1]
      obtain ⟨j, hj⟩ := recvBytes_open_end cs (recvByte s c) hopen.2 hopen.1 h3
      exact ⟨0, j + 1, Nat.succ_pos j, by simp [hc], by simpa using hj⟩
    · rw [recvByte_outside s c h2 hc] at h3
      obtain ⟨i, j, hij, hi, hj⟩ := ih s h1 h2 h3
      exact ⟨i + 1, j + 1, by omega, by simpa using hi, by simpa using hj⟩

/-- C4: the new-message flag is set only after a start marker and a later end
marker have both been seen in that order; bytes outside an open frame are
discarded; in-frame bytes beyond the 49-character capacity are dropped with
the frame left open, so a later end marker still delivers the truncated
payload; and an unterminated frame never produces a ready payload. -/
theorem claim4_decoder_invariants :
    (∀ bytes : List Char, (recvBytes recvInit bytes).newData = true →
        ∃ i j : Nat, i < j ∧ bytes[i]? = some START_MARKER ∧ bytes[j]? = some END_MARKER) ∧
    (∀ (s : RecvState) (c : Char), s.recvInProgress = false → c ≠ START_MARKER →
        recvByte s c = s) ∧
    (∀ (s : RecvState) (c : Char), s.recvInProgress = true → c ≠ END_MARKER →
        ¬ s.buf.length < MAX_DATA_LENGTH - 1 →
        recvByte s c = s) ∧
    ((recvBytes recvInit (START_MARKER :: (List.replicate 60 'a' ++ [END_MARKER]))).payload
        = List.replicate 49 'a' ∧
     (recvBytes recvInit (START_MARKER :: (List.replicate 60 'a' ++ [END_MARKER]))).newData
        = true) ∧
    (recvBytes recvInit "<rod2:5".data).newData = false := by
  refine ⟨?_, recvByte_outside, recvByte_full, by decide, by decide⟩
  intro bytes h
  exact recvBytes_closed_markers bytes recvInit rfl rfl h

/-- Witness for C4: a byte outside any open frame is discarded, and the
capacity rule drops a byte once 49 payload characters are buffered. -/
theorem claim4_decoder_invariants_witness :
    recvByte recvInit 'x' = recvInit ∧
    recvByte ⟨true, List.replicate 49 'a', [], false⟩ 'b'
      = ⟨true, List.replicate 49 'a', [], false⟩ := by
  refine ⟨claim4_decoder_invariants.2.1 recvInit 'x' rfl (by decide),
    claim4_decoder_invariants.2.2.1 ⟨true, List.replicate 49 'a', [], false⟩ 'b' rfl
      (by decide) (by decide)⟩

/-- C10: inside an open frame a start-marker byte is not special: with room
in the buffer it is appended like any other non-terminator byte and the
frame stays open; concretely the stream with an inner start marker delivers
that marker inside the single payload. -/
theorem claim10_start_marker_in_frame :
    (∀ s : RecvState, s.recvInProgress = true →
        s.buf.length < MAX_DATA_LENGTH - 1 →
        recvByte s START_MARKER = { s with buf := s.buf ++ [START_MARKER] }) ∧
    ((recvBytes recvInit "<a<b>".data).newData = true ∧
     (recvBytes recvInit "<a<b>".data).payload = "a<b".data) := by
  refine ⟨fun s h1 h3 => recvByte_append s START_MARKER h1 (by decide) h3, by decide, by decide⟩

/-- Witness for C10: appending an inner start marker to an open frame. -/
theorem claim10_start_marker_in_frame_witness :
    recvByte ⟨true, ['a'], [], false⟩ START_MARKER = ⟨true, ['a', '<'], [], false⟩ := by
  exact claim10_start_marker_in_frame.1 ⟨true, ['a'], [], false⟩ rfl (by decide)

/-! ### State-machine lemmas -/

lemma runningBuzzer_acts (s : CState) (now : Nat) :
    ∀ a ∈ (runningBuzzer s now).2, ∃ b : Bool, a = Act.digitalWrite BUZZER_PIN b := by
  unfold runningBuzzer
  split
  · split
    · intro a ha
      simp only [List.mem_singleton] at ha
      exact ⟨_, ha⟩
    · intro a ha
      simp at ha
  · split
    · intro a ha
      simp only [List.mem_singleton] at ha
      exact ⟨_, ha⟩
    · intro a ha
      simp at ha

lemma loopStep_currentState (s : CState) (now : Nat) :
    (loopStep s now).1.currentState = (stateMachineStep (preStep s) now).1.currentState := by
  dsimp only [loopStep]
  split <;> rfl

lemma loopStep_sequence_step (s : CState) (now : Nat) :
    (loopStep s now).1.sequence_step = (stateMachineStep (preStep s) now).1.sequence_step := by
  dsimp only [loopStep]
  split <;> rfl

lemma loopStep_stateTimer (s : CState) (now : Nat) :
    (loopStep s now).1.stateTimer = (stateMachineStep (preStep s) now).1.stateTimer := by
  dsimp only [loopStep]
  split <;> rfl

lemma loopStep_isBuzzerOn (s : CState) (now : Nat) :
    (loopStep s now).1.isBuzzerOn = (stateMachineStep (preStep s) now).1.isBuzzerOn := by
  dsimp only [loopStep]
  split <;> rfl

lemma loopStep_acts (s : CState) (now : Nat) :
    (loopStep s now).2.1 = (stateMachineStep (preStep s) now).2 := by
  dsimp only [loopStep]
  split <;> rfl

lemma stateMachineStep_shuttingDown_eq (s : CState) (now : Nat)
    (h : s.currentState = SystemState.shuttingDown) :
    stateMachineStep s now =
      if now - s.stateTimer > SEQUENCE_DELAY then
        runShutdownSequence { s with sequence_step := s.sequence_step + 1, stateTimer := now }
      else (s, []) := by
  unfold stateMachineStep
  rw [h]

lemma preStep_fields (s : CState) :
    (preStep s).currentState = s.currentState ∧
    (preStep s).currentPowerLevel = powerLevelOf s.rod2_pos s.rod3_pos ∧
    (preStep s).previousPowerLevel = s.currentPowerLevel ∧
    (preStep s).sequence_step = s.sequence_step ∧
    (preStep s).stateTimer = s.stateTimer := ⟨rfl, rfl, rfl, rfl, rfl⟩

/-- C2: from Idle with a nonzero derived level, the first staged action runs
immediately; while StartingUp with a nonzero level, nothing is staged before
the 5000 ms window elapses, and once it elapses the single next stage runs
with the timer rebased; the fourth stage (from step 3) itself enters Running
and appends the full steady-state profile for the level derived on that
tick.  Together: exactly 4 staged actions, each pair separated by more than
SEQUENCE_DELAY. -/
theorem claim2_startup_sequence (s : CState) (now : Nat) :
    (s.currentState = SystemState.idle →
      0 < powerLevelOf s.rod2_pos s.rod3_pos →
      (loopStep s now).1.currentState = SystemState.startingUp ∧
      (loopStep s now).1.sequence_step = 1 ∧
      (loopStep s now).1.stateTimer = now ∧
      (loopStep s now).2.1 = [Act.digitalWrite STEAM_HUMID_1_PIN RELAY_ON,
                              setMotorPwmAct PWM_CH_STEAM_FAN 50]) ∧
    (s.currentState = SystemState.startingUp →
      0 < powerLevelOf s.rod2_pos s.rod3_pos →
      ¬ now - s.stateTimer > SEQUENCE_DELAY →
      (loopStep s now).1.currentState = SystemState.startingUp ∧
      (loopStep s now).1.sequence_step = s.sequence_step ∧
      (loopStep s now).1.stateTimer = s.stateTimer ∧
      (loopStep s now).2.1 = []) ∧
    (s.currentState = SystemState.startingUp →
      0 < powerLevelOf s.rod2_pos s.rod3_pos →
      now - s.stateTimer > SEQUENCE_DELAY →
      s.sequence_step = 1 →
      (loopStep s now).1.currentState = SystemState.startingUp ∧
      (loopStep s now).1.sequence_step = 2 ∧
      (loopStep s now).1.stateTimer = now ∧
      (loopStep s now).2.1 = [setMotorPwmAct PWM_CH_TURBINE 40]) ∧
    (s.currentState = SystemState.startingUp →
      0 < powerLevelOf s.rod2_pos s.rod3_pos →
      now - s.stateTimer > SEQUENCE_DELAY →
      s.sequence_step = 2 →
      (loopStep s now).1.currentState = SystemState.startingUp ∧
      (loopStep s now).1.sequence_step = 3 ∧
      (loopStep s now).1.stateTimer = now ∧
      (loopStep s now).2.1 = [Act.digitalWrite CONDENSOR_HUMID_PIN RELAY_ON,
                              setMotorPwmAct PWM_CH_CONDENSOR 60]) ∧
    (s.currentState = SystemState.startingUp →
      0 < powerLevelOf s.rod2_pos s.rod3_pos →
      now - s.stateTimer > SEQUENCE_DELAY →
      s.sequence_step = 3 →
      (loopStep s now).1.currentState = SystemState.running ∧
      (loopStep s now).1.sequence_step = 4 ∧
      (loopStep s now).1.stateTimer = now ∧
      (loopStep s now).2.1 = [Act.digitalWrite COOLTOWER_HUMID_1_PIN RELAY_ON,
                              setMotorPwmAct PWM_CH_COOLTOWER 60] ++
        updateSystemOutputs SystemState.running (powerLevelOf s.rod2_pos s.rod3_pos)) := by
  refine ⟨?_, ?_, ?_, ?_, ?_⟩
  · intro h1 h2
    simp only [loopStep_currentState, loopStep_sequence_step, loopStep_stateTimer,
      loopStep_acts]
    simp [stateMachineStep, preStep, runStartupSequence, h1, h2]
  · intro h1 h2 h3
    simp only [loopStep_currentState, loopStep_sequence_step, loopStep_stateTimer,
      loopStep_acts]
    simp [stateMachineStep, preStep, h1, h2.ne', h3]
  · intro h1 h2 h3 h4
    simp only [loopStep_currentState, loopStep_sequence_step, loopStep_stateTimer,
      loopStep_acts]
    simp [stateMachineStep, preStep, runStartupSequence, h1, h2.ne', h3, h4]
  · intro h1 h2 h3 h4
    simp only [loopStep_currentState, loopStep_sequence_step, loopStep_stateTimer,
      loopStep_acts]
    simp [stateMachineStep, preStep, runStartupSequence, h1, h2.ne', h3, h4]
  · intro h1 h2 h3 h4
    simp only [loopStep_currentState, loopStep_sequence_step, loopStep_stateTimer,
      loopStep_acts]
    simp [stateMachineStep, preStep, runStartupSequence, h1, h2.ne', h3, h4]

/-- Witness for C2: a concrete Idle state with intermediate level enters
StartingUp and stages the steam generator at once. -/
theorem claim2_startup_sequence_witness :
    (loopStep ⟨SystemState.idle, 0, 0, 25, 20, 0, 0, 0, false, 0⟩ 0).1.currentState
        = SystemState.startingUp ∧
    (loopStep ⟨SystemState.idle, 0, 0, 25, 20, 0, 0, 0, false, 0⟩ 0).2.1
        = [Act.digitalWrite STEAM_HUMID_1_PIN RELAY_ON,
           setMotorPwmAct PWM_CH_STEAM_FAN 50] := by
  have h := (claim2_startup_sequence ⟨SystemState.idle, 0, 0, 25, 20, 0, 0, 0, false, 0⟩ 0).1
    rfl (by decide)
  exact ⟨h.1, h.2.2.2⟩

/-- C3: a StartingUp tick on which the derived level is 0 enters
ShuttingDown in that same tick, resets the staging to step 1, rebases the
timer, clears the buzzer flag, and its actuator writes are exactly the full
de-actuation (all relays to RELAY_OFF, buzzer LOW, all motors to duty 0 —
shutdown stage 1 adds no write); moreover no tick that starts in
ShuttingDown can ever produce the Running state. -/
theorem claim3_startup_abort (s : CState) (now : Nat) :
    (s.currentState = SystemState.startingUp →
      powerLevelOf s.rod2_pos s.rod3_pos = 0 →
      (loopStep s now).1.currentState = SystemState.shuttingDown ∧
      (loopStep s now).1.sequence_step = 1 ∧
      (loopStep s now).1.stateTimer = now ∧
      (loopStep s now).1.isBuzzerOn = false ∧
      (loopStep s now).2.1 = turnEverythingOffActs) ∧
    (s.currentState = SystemState.shuttingDown →
      (loopStep s now).1.currentState ≠ SystemState.running) := by
  constructor
  · intro h1 h2
    simp only [loopStep_currentState, loopStep_sequence_step, loopStep_stateTimer,
      loopStep_isBuzzerOn, loopStep_acts]
    simp [stateMachineStep, preStep, enterShutdown, turnEverythingOff,
      runShutdownSequence, h1, h2]
  · intro h1
    rw [loopStep_currentState, stateMachineStep_shuttingDown_eq (preStep s) now h1]
    split
    · unfold runShutdownSequence
      split <;> simp [preStep, h1]
    · simp [preStep, h1]

/-- Witness for C3: a concrete abort tick and a concrete ShuttingDown
tick. -/
theorem claim3_startup_abort_witness :
    ((loopStep ⟨SystemState.startingUp, 1, 1, 15, 10, 100, 0, 2, false, 0⟩ 300).1.currentState
        = SystemState.shuttingDown ∧
     (loopStep ⟨SystemState.startingUp, 1, 1, 15, 10, 100, 0, 2, false, 0⟩ 300).1.sequence_step
        = 1 ∧
     (loopStep ⟨SystemState.startingUp, 1, 1, 15, 10, 100, 0, 2, false, 0⟩ 300).1.stateTimer
        = 300 ∧
     (loopStep ⟨SystemState.startingUp, 1, 1, 15, 10, 100, 0, 2, false, 0⟩ 300).1.isBuzzerOn
        = false ∧
     (loopStep ⟨SystemState.startingUp, 1, 1, 15, 10, 100, 0, 2, false, 0⟩ 300).2.1
        = turnEverythingOffActs) ∧
    (loopStep ⟨SystemState.shuttingDown, 0, 0, 15, 10, 100, 0, 1, false, 0⟩ 6000).1.currentState
        ≠ SystemState.running := by
  exact ⟨(claim3_startup_abort ⟨SystemState.startingUp, 1, 1, 15, 10, 100, 0, 2, false, 0⟩
            300).1 rfl (by decide),
         (claim3_startup_abort ⟨SystemState.shuttingDown, 0, 0, 15, 10, 100, 0, 1, false, 0⟩
            6000).2 rfl⟩

/-- C7: on a Running tick with nonzero derived level, the actuator writes
are the steady-state profile for the new level exactly when that level
differs from the level recorded on the previous tick, followed only by
whatever the alarm indicator writes to the buzzer pin; with the level
unchanged no steady-state write occurs. -/
theorem claim7_running_idempotent_by_change (s : CState) (now : Nat)
    (h1 : s.currentState = SystemState.running)
    (h2 : powerLevelOf s.rod2_pos s.rod3_pos ≠ 0) :
    ∃ ba : List Act,
      (∀ a ∈ ba, ∃ b : Bool, a = Act.digitalWrite BUZZER_PIN b) ∧
      (loopStep s now).2.1 =
        (if powerLevelOf s.rod2_pos s.rod3_pos ≠ s.currentPowerLevel then
           updateSystemOutputs SystemState.running (powerLevelOf s.rod2_pos s.rod3_pos)
         else []) ++ ba := by
  refine ⟨(runningBuzzer (preStep s) now).2, runningBuzzer_acts _ now, ?_⟩
  rw [loopStep_acts]
  simp [stateMachineStep, preStep, h1, h2]

/-- Witness for C7: with the level unchanged and the alarm idle the Running
tick issues no actuator write at all. -/
theorem claim7_running_idempotent_by_change_witness :
    ∃ ba : List Act,
      (∀ a ∈ ba, ∃ b : Bool, a = Act.digitalWrite BUZZER_PIN b) ∧
      (loopStep ⟨SystemState.running, 1, 1, 25, 20, 100, 0, 4, false, 0⟩ 600).2.1 =
        (if powerLevelOf 25 20 ≠ 1 then
           updateSystemOutputs SystemState.running (powerLevelOf 25 20)
         else []) ++ ba := by
  exact claim7_running_idempotent_by_change
    ⟨SystemState.running, 1, 1, 25, 20, 100, 0, 4, false, 0⟩ 600 rfl (by decide)

/-! ### Decimal rendering and atol lemmas -/

lemma natDecimalAux_digits : ∀ fuel n : Nat, n < fuel →
    ∀ c ∈ natDecimalAux fuel n, isDigitC c = true := by
  intro fuel
  induction fuel with
  | zero => omega
  | succ fuel ih =>
    intro n _ c hc
    unfold natDecimalAux at hc
    by_cases hn : n < 10
    · rw [if_pos hn] at hc
      simp only [List.mem_singleton] at hc
      subst hc
      interval_cases n <;> decide
    · rw [if_neg hn] at hc
      rcases List.mem_append.mp hc with hc | hc
      · have hlt : n / 10 < fuel := by
          have := Nat.div_lt_self (by omega : 0 < n) (by omega : 1 < 10)
          omega
        exact ih (n / 10) hlt c hc
      · simp only [List.mem_singleton] at hc
        subst hc
        have hm : n % 10 < 10 := Nat.mod_lt n (by omega)
        interval_cases hh : n % 10 <;> decide

lemma natDecimalAux_ne_nil : ∀ fuel n : Nat, n < fuel → natDecimalAux fuel n ≠ [] := by
  intro fuel
  cases fuel with
  | zero => omega
  | succ fuel =>
    intro n _
    unfold natDecimalAux
    by_cases hn : n < 10
    · simp [hn]
    · simp [hn]

lemma parseDigits_append (xs : List Char) : ∀ (ys : List Char) (acc : Int),
    (∀ c ∈ xs, isDigitC c = true) →
    parseDigits (xs ++ ys) acc = parseDigits ys (parseDigits xs acc) := by
  induction xs with
  | nil => intro ys acc _; rfl
  | cons c cs ih =>
    intro ys acc h
    have hc : isDigitC c = true := h c (List.mem_cons_self c cs)
    simp only [List.cons_append, parseDigits, hc, if_true]
    exact ih ys _ (fun d hd => h d (List.mem_cons_of_mem c hd))

lemma parseDigits_natDecimalAux : ∀ fuel n : Nat, n < fuel → ∀ acc : Int,
    parseDigits (natDecimalAux fuel n) acc
      = acc * 10 ^ (natDecimalAux fuel n).length + n := by
  intro fuel
  induction fuel with
  | zero => omega
  | succ fuel ih =>
    intro n hn acc
    unfold natDecimalAux
    by_cases h10 : n < 10
    · rw [if_pos h10]
      have htn : (digitChar n).toNat = 48 + n := by interval_cases n <;> decide
      have hdg : isDigitC (digitChar n) = true := by interval_cases n <;> decide
      simp only [parseDigits, hdg, if_true, List.length_singleton, pow_one, htn]
      push_cast
      ring
    · rw [if_neg h10]
      have hlt : n / 10 < fuel := by
        have := Nat.div_lt_self (by omega : 0 < n) (by omega : 1 < 10)
        omega
      have hdigs := natDecimalAux_digits fuel (n / 10) hlt
      rw [parseDigits_append _ _ _ hdigs, ih (n / 10) hlt acc]
      have hm : n % 10 < 10 := Nat.mod_lt n (by omega)
      have htn : (digitChar (n % 10)).toNat = 48 + n % 10 := by
        interval_cases hh : n % 10 <;> decide
      have hdg : isDigitC (digitChar (n % 10)) = true := by
        interval_cases hh : n % 10 <;> decide
      simp only [parseDigits, hdg, if_true, List.length_append, List.length_singleton, htn]
      have hdm : ((n / 10 : Nat) : Int) * 10 + ((n % 10 : Nat) : Int) = (n : Int) := by
        omega
      push_cast
      push_cast at hdm
      linear_combination hdm

lemma isDigitC_not_space (c : Char) (h : isDigitC c = true) : isSpaceC c = false := by
  rcases hs : isSpaceC c
  · rfl
  · exfalso
    simp only [isSpaceC, Bool.or_eq_true, decide_eq_true_eq] at hs
    rcases hs with ((((h1 | h1) | h1) | h1) | h1) | h1 <;>
      (rw [h1] at h; exact absurd h (by decide))

lemma atol_digits (cs : List Char) (h : ∀ c ∈ cs, isDigitC c = true) (hne : cs ≠ []) :
    atol cs = parseDigits cs 0 := by
  cases cs with
  | nil => exact absurd rfl hne
  | cons c rest =>
    have hc : isDigitC c = true := h c (List.mem_cons_self c rest)
    have hsp : isSpaceC c = false := isDigitC_not_space c hc
    have hminus : c ≠ '-' := by
      intro e
      rw [e] at hc
      exact absurd hc (by decide)
    have hplus : c ≠ '+' := by
      intro e
      rw [e] at hc
      exact absurd hc (by decide)
    unfold atol
    rw [List.dropWhile_cons, hsp]
    simp [hminus, hplus]

/-- The decimal rendering of n parses back to n with atol. -/
lemma atol_natDecimal (n : Nat) : atol (natDecimal n) = (n : Int) := by
  have hd := natDecimalAux_digits (n + 1) n (Nat.lt_succ_self n)
  rw [natDecimal, atol_digits _ hd (natDecimalAux_ne_nil (n + 1) n (Nat.lt_succ_self n)),
    parseDigits_natDecimalAux (n + 1) n (Nat.lt_succ_self n) 0]
  ring

/-! ### strtok and splitColon lemmas -/

lemma strtokAux_no_semi : ∀ (cs acc : List Char), (∀ c ∈ cs, c ≠ ';') → acc ≠ [] →
    strtokAux cs acc = [acc.reverse ++ cs] := by
  intro cs
  induction cs with
  | nil =>
    intro acc _ hacc
    simp [strtokAux, hacc]
  | cons c cs ih =>
    intro acc h hacc
    have hc : c ≠ ';' := h c (List.mem_cons_self c cs)
    simp only [strtokAux, hc, if_false]
    rw [ih (c :: acc) (fun d hd => h d (List.mem_cons_of_mem c hd)) (by simp)]
    simp

lemma strtokens_no_semi (cs : List Char) (h : ∀ c ∈ cs, c ≠ ';') (hne : cs ≠ []) :
    strtokens cs = [cs] := by
  cases cs with
  | nil => exact absurd rfl hne
  | cons c rest =>
    have hc : c ≠ ';' := h c (List.mem_cons_self c rest)
    simp only [strtokens, strtokAux, hc, if_false]
    rw [strtokAux_no_semi rest [c] (fun d hd => h d (List.mem_cons_of_mem c hd)) (by simp)]
    simp

lemma splitColon_append (k : List Char) : ∀ v : List Char, (∀ c ∈ k, c ≠ ':') →
    splitColon (k ++ ':' :: v) = some (k, v) := by
  induction k with
  | nil => intro v _; simp [splitColon]
  | cons c cs ih =>
    intro v h
    have hc : c ≠ ':' := h c (List.mem_cons_self c cs)
    rw [List.cons_append, splitColon, if_neg hc,
      ih v (fun d hd => h d (List.mem_cons_of_mem c hd))]
    rfl

/-! ### Frame-delivery lemma -/

lemma recvBytes_deliver (p : List Char) : ∀ (b pay rest : List Char),
    b.length + p.length ≤ MAX_DATA_LENGTH - 1 → (∀ c ∈ p, c ≠ END_MARKER) →
    recvBytes ⟨true, b, pay, false⟩ (p ++ END_MARKER :: rest)
      = ⟨false, [], b ++ p, true⟩ := by
  induction p with
  | nil =>
    intro b pay rest _ _
    rw [List.nil_append, recvBytes]
    have hstep : recvByte ⟨true, b, pay, false⟩ END_MARKER = ⟨false, [], b, true⟩ := by
      simp [recvByte]
    simp only [if_false]
    rw [hstep, recvBytes_of_newData rest _ rfl]
    simp
  | cons c p ih =>
    intro b pay rest hlen hp
    have hc : c ≠ END_MARKER := hp c (List.mem_cons_self c p)
    rw [List.cons_append, recvBytes]
    simp only [if_false]
    rw [recvByte_append _ c rfl hc (by simp at hlen ⊢; omega)]
    have := ih (b ++ [c]) pay rest (by simp at hlen ⊢; omega)
      (fun d hd => hp d (List.mem_cons_of_mem c hd))
    simpa using this

/-- C5: the round trip.  For every non-negative power level whose decimal
text fits the frame buffer together with the pwr key, the frame written by
sendDataToEspD, fed to the frame decoder and then to the key/value split of
the shared protocol, yields exactly the single pair (pwr, value). -/
theorem claim5_roundtrip (n : Nat)
    (h : 4 + (natDecimal n).length ≤ MAX_DATA_LENGTH - 1) :
    (recvBytes recvInit (sendDataToEspDBytes n)).newData = true ∧
    (recvBytes recvInit (sendDataToEspDBytes n)).payload
      = "pwr:".data ++ natDecimal n ∧
    decodeKV (recvBytes recvInit (sendDataToEspDBytes n)).payload
      = [("pwr".data, (n : Int))] := by
  have hd := natDecimalAux_digits (n + 1) n (Nat.lt_succ_self n)
  have hnogt : ∀ c ∈ "pwr:".data ++ natDecimal n, c ≠ END_MARKER := by
    intro c hc
    rcases List.mem_append.mp hc with hc | hc
    · fin_cases hc <;> decide
    · intro e
      have := hd c hc
      rw [e] at this
      exact absurd this (by decide)
  have hframe : recvBytes recvInit (sendDataToEspDBytes n)
      = ⟨false, [], "pwr:".data ++ natDecimal n, true⟩ := by
    have hsplit : sendDataToEspDBytes n
        = START_MARKER :: (("pwr:".data ++ natDecimal n) ++ END_MARKER :: ['\n']) := by
      simp [sendDataToEspDBytes]
    rw [hsplit, recvBytes]
    simp only [if_false]
    have hopen : recvByte recvInit START_MARKER = ⟨true, [], [], false⟩ := by decide
    rw [hopen, recvBytes_deliver _ [] [] ['\n'] (by simp at h ⊢; omega) hnogt]
    rfl
  have hnosemi : ∀ c ∈ "pwr:".data ++ natDecimal n, c ≠ ';' := by
    intro c hc
    rcases List.mem_append.mp hc with hc | hc
    · fin_cases hc <;> decide
    · intro e
      have := hd c hc
      rw [e] at this
      exact absurd this (by decide)
  refine ⟨by rw [hframe], by rw [hframe], ?_⟩
  rw [hframe]
  show decodeKV ("pwr:".data ++ natDecimal n) = [("pwr".data, (n : Int))]
  unfold decodeKV
  rw [strtokens_no_semi _ hnosemi (by simp)]
  have hkv : "pwr:".data ++ natDecimal n = "pwr".data ++ ':' :: natDecimal n := by simp
  rw [List.filterMap_cons, hkv, splitColon_append _ _ (by intro c hc; fin_cases hc <;> decide)]
  simp [atol_natDecimal n]

/-- Witness for C5 at power level 2 (the largest the firmware produces). -/
theorem claim5_roundtrip_witness :
    (recvBytes recvInit (sendDataToEspDBytes 2)).newData = true ∧
    (recvBytes recvInit (sendDataToEspDBytes 2)).payload = "pwr:".data ++ natDecimal 2 ∧
    decodeKV (recvBytes recvInit (sendDataToEspDBytes 2)).payload
      = [("pwr".data, (2 : Int))] := by
  exact claim5_roundtrip 2 (by decide)

/-! ### Parser error-handling lemmas -/

lemma atol_nonnumeric (c : Char) (v : List Char)
    (hd : isDigitC c = false) (hp : c ≠ '+') (hm : c ≠ '-') (hs : isSpaceC c = false) :
    atol (c :: v) = 0 := by
  unfold atol
  rw [List.dropWhile_cons, hs]
  simp [hm, hp, parseDigits, hd]

/-- C6: a token with no colon changes nothing; a token on which parseToken
is neutral can be deleted from the token fold without changing the result
(so a malformed token never blocks the other tokens); a non-numeric value
under the rod2 key stores the default 0; a token with an unrecognized key
changes nothing; and parsing clears the new-message flag.  Concretely, the
payload junk;rod2:abc;rod3:20 still extracts rod3 while defaulting rod2. -/
theorem claim6_parser_error_handling :
    (∀ (r : Rods) (tok : List Char), splitColon tok = none → parseToken r tok = r) ∧
    (∀ (r : Rods) (ts1 ts2 : List (List Char)) (tok : List Char),
        (∀ q : Rods, parseToken q tok = q) →
        (ts1 ++ tok :: ts2).foldl parseToken r = (ts1 ++ ts2).foldl parseToken r) ∧
    (∀ (r : Rods) (c : Char) (v : List Char),
        isDigitC c = false → c ≠ '+' → c ≠ '-' → isSpaceC c = false →
        parseToken r ("rod2:".data ++ c :: v) = { r with rod2_pos := 0 }) ∧
    (∀ (r : Rods) (k v : List Char), (∀ c ∈ k, c ≠ ':') →
        k ≠ "rod2".data → k ≠ "rod3".data →
        parseToken r (k ++ ':' :: v) = r) ∧
    (∀ (s : RecvState) (r : Rods), s.newData = true →
        (parseDataFromESP_B s r).1.newData = false) ∧
    parsePayload ⟨7, 8⟩ "junk;rod2:abc;rod3:20".data = ⟨0, 20⟩ := by
  refine ⟨?_, ?_, ?_, ?_, ?_, by decide⟩
  · intro r tok h
    unfold parseToken
    rw [h]
  · intro r ts1 ts2 tok h
    rw [List.foldl_append, List.foldl_cons, h (ts1.foldl parseToken r), List.foldl_append]
  · intro r c v hd hp hm hs
    have hsplit : splitColon ("rod2:".data ++ c :: v) = some ("rod2".data, c :: v) := by
      have : "rod2:".data ++ c :: v = "rod2".data ++ ':' :: (c :: v) := by simp
      rw [this, splitColon_append _ _ (by intro d hdm; fin_cases hdm <;> decide)]
    unfold parseToken
    rw [hsplit]
    simp [atol_nonnumeric c v hd hp hm hs]
  · intro r k v hk h2 h3
    unfold parseToken
    rw [splitColon_append _ _ hk]
    simp [h2, h3]
  · intro s r h
    simp [parseDataFromESP_B, h]

/-- Witness for C6: a colon-less token, a deletable malformed token inside
a fold, a non-numeric rod2 value, an unrecognized key, and the flag
clearing, all at concrete inputs. -/
theorem claim6_parser_error_handling_witness :
    parseToken ⟨1, 2⟩ "junk".data = ⟨1, 2⟩ ∧
    (["rod2:5".data] ++ "junk".data :: ["rod3:6".data]).foldl parseToken ⟨1, 2⟩
      = (["rod2:5".data] ++ ["rod3:6".data]).foldl parseToken ⟨1, 2⟩ ∧
    parseToken ⟨1, 2⟩ ("rod2:".data ++ 'a' :: "bc".data) = ⟨0, 2⟩ ∧
    parseToken ⟨1, 2⟩ ("temp".data ++ ':' :: "9".data) = ⟨1, 2⟩ ∧
    (parseDataFromESP_B ⟨false, [], "rod2:5".data, true⟩ ⟨1, 2⟩).1.newData = false := by
  refine ⟨claim6_parser_error_handling.1 ⟨1, 2⟩ "junk".data (by decide),
    claim6_parser_error_handling.2.1 ⟨1, 2⟩ ["rod2:5".data] ["rod3:6".data] "junk".data
      (fun q => claim6_parser_error_handling.1 q "junk".data (by decide)),
    ?_,
    claim6_parser_error_handling.2.2.2.1 ⟨1, 2⟩ "temp".data "9".data
      (by intro c hc; fin_cases hc <;> decide) (by decide) (by decide),
    claim6_parser_error_handling.2.2.2.2.1 ⟨false, [], "rod2:5".data, true⟩ ⟨1, 2⟩ rfl⟩
  exact claim6_parser_error_handling.2.2.1 ⟨1, 2⟩ 'a' "bc".data
    (by decide) (by decide) (by decide) (by decide)

/-- C8: the three consumer-variant parsers diverge.  ESP-F returns on the
first matching semicolon-terminated pair (a later duplicate is ignored),
ESP-E scans them all (the last duplicate wins) but, like ESP-F, never
examines the trailing pair after the last semicolon, while ESP-G also
examines that trailing pair: on a frame whose only matching pair is the
final unterminated token, the ESP-G parser updates its status and the
ESP-E and ESP-F parsers leave it unchanged. -/
theorem claim8_variant_parser_divergence (st : Int) :
    espF_parseData st "<pump2:1;pump2:3;>".data = 1 ∧
    espE_parseData st "<pump1:1;pump1:3;>".data = 3 ∧
    espG_parseData st "<pump3:2>".data = 2 ∧
    espE_parseData st "<pump1:2>".data = st ∧
    espF_parseData st "<pump2:2>".data = st := by
  exact ⟨rfl, rfl, rfl, rfl, rfl⟩

/-! ### Animation-tick equations -/

lemma animTick_off_reset (s : EState) (now : Nat) (h0 : s.pumpPrimaryStatus = 0)
    (hm : s.masterPosition ≠ -1) :
    animTick s now = ({ s with masterPosition := -1 },
      (List.range NUM_LEDS).map (fun i => Act.ledcWrite i 0)) := by
  simp [animTick, h0, hm]

lemma animTick_off_idle (s : EState) (now : Nat) (h0 : s.pumpPrimaryStatus = 0)
    (hm : s.masterPosition = -1) :
    animTick s now = (s, []) := by
  simp [animTick, h0, hm]

lemma animTick_run_elapsed (s : EState) (now : Nat) (h0 : s.pumpPrimaryStatus ≠ 0)
    (hm : s.masterPosition ≠ -1) (ht : delayFor s ≤ now - s.lastAnimationTime) :
    animTick s now =
      ({ s with animationSpeedDelay := delayFor s, lastAnimationTime := now,
                masterPosition :=
                  if (NUM_LEDS : Int) ≤ s.masterPosition + 1 then 0
                  else s.masterPosition + 1 },
       (List.range NUM_LEDS).map
         (fun i => Act.ledcWrite i (renderFrame s.masterPosition i))) := by
  simp [animTick, h0, hm, ht]

lemma animTick_run_elapsed_reset (s : EState) (now : Nat) (h0 : s.pumpPrimaryStatus ≠ 0)
    (hm : s.masterPosition = -1) (ht : delayFor s ≤ now - s.lastAnimationTime) :
    animTick s now =
      ({ s with animationSpeedDelay := delayFor s, lastAnimationTime := now,
                masterPosition := 1 },
       (List.range NUM_LEDS).map (fun i => Act.ledcWrite i (renderFrame 0 i))) := by
  simp [animTick, h0, hm, ht]
  norm_num [NUM_LEDS]

lemma animTick_run_wait (s : EState) (now : Nat) (h0 : s.pumpPrimaryStatus ≠ 0)
    (hm : s.masterPosition ≠ -1) (ht : ¬ delayFor s ≤ now - s.lastAnimationTime) :
    animTick s now = ({ s with animationSpeedDelay := delayFor s }, []) := by
  simp [animTick, h0, hm, ht]

lemma animTick_run_wait_reset (s : EState) (now : Nat) (h0 : s.pumpPrimaryStatus ≠ 0)
    (hm : s.masterPosition = -1) (ht : ¬ delayFor s ≤ now - s.lastAnimationTime) :
    animTick s now =
      ({ s with animationSpeedDelay := delayFor s, masterPosition := 0 }, []) := by
  simp [animTick, h0, hm, ht]

/-- C9: the master position is always the sentinel -1 or in 0..15; with a
non-off status and an elapsed delay window it advances by exactly one,
wrapping to 0 exactly when the increment would reach the actuator count;
with the window not yet elapsed it does not move; and on the transition
into the off status every actuator is written to zero exactly once, the
position being parked at the sentinel so later off ticks do nothing. -/
theorem claim9_animation_position :
    (∀ (s : EState) (now : Nat),
        (s.masterPosition = -1 ∨ (0 ≤ s.masterPosition ∧ s.masterPosition < 16)) →
        ((animTick s now).1.masterPosition = -1 ∨
         (0 ≤ (animTick s now).1.masterPosition ∧
          (animTick s now).1.masterPosition < 16))) ∧
    (∀ (s : EState) (now : Nat), s.pumpPrimaryStatus ≠ 0 →
        0 ≤ s.masterPosition → s.masterPosition < 16 →
        delayFor s ≤ now - s.lastAnimationTime →
        (animTick s now).1.masterPosition =
          (if s.masterPosition + 1 = 16 then 0 else s.masterPosition + 1)) ∧
    (∀ (s : EState) (now : Nat), s.pumpPrimaryStatus ≠ 0 →
        0 ≤ s.masterPosition →
        ¬ delayFor s ≤ now - s.lastAnimationTime →
        (animTick s now).1.masterPosition = s.masterPosition ∧
        (animTick s now).2 = []) ∧
    (∀ (s : EState) (now : Nat), s.pumpPrimaryStatus = 0 → s.masterPosition ≠ -1 →
        (animTick s now).1.masterPosition = -1 ∧
        (animTick s now).2 = (List.range NUM_LEDS).map (fun i => Act.ledcWrite i 0)) ∧
    (∀ (s : EState) (now : Nat), s.pumpPrimaryStatus = 0 → s.masterPosition = -1 →
        animTick s now = (s, [])) := by
  refine ⟨?_, ?_, ?_, ?_, ?_⟩
  · intro s now hpos
    by_cases h0 : s.pumpPrimaryStatus = 0
    · by_cases hm : s.masterPosition = -1
      · rw [animTick_off_idle s now h0 hm]
        left
        exact hm
      · rw [animTick_off_reset s now h0 hm]
        left
        rfl
    · by_cases hm : s.masterPosition = -1
      · by_cases ht : delayFor s ≤ now - s.lastAnimationTime
        · rw [animTick_run_elapsed_reset s now h0 hm ht]
          right
          constructor <;> norm_num
        · rw [animTick_run_wait_reset s now h0 hm ht]
          right
          constructor <;> norm_num
      · have hrange : 0 ≤ s.masterPosition ∧ s.masterPosition < 16 := by
          rcases hpos with hpos | hpos
          · exact absurd hpos hm
          · exact hpos
        by_cases ht : delayFor s ≤ now - s.lastAnimationTime
        · rw [animTick_run_elapsed s now h0 hm ht]
          right
          simp only [NUM_LEDS]
          split <;> (constructor <;> omega)
        · rw [animTick_run_wait s now h0 hm ht]
          right
          exact hrange
  · intro s now h0 hge hlt ht
    have hm : s.masterPosition ≠ -1 := by omega
    rw [animTick_run_elapsed s now h0 hm ht]
    dsimp only
    by_cases hw : s.masterPosition + 1 = 16
    · rw [if_pos hw, if_pos (by rw [hw]; norm_num [NUM_LEDS])]
    · rw [if_neg hw, if_neg (by simp only [NUM_LEDS]; push_cast; omega)]
  · intro s now h0 hge ht
    have hm : s.masterPosition ≠ -1 := by omega
    rw [animTick_run_wait s now h0 hm ht]
    exact ⟨rfl, rfl⟩
  · intro s now h0 hm
    rw [animTick_off_reset s now h0 hm]
    exact ⟨rfl, rfl⟩
  · intro s now h0 hm
    exact animTick_off_idle s now h0 hm

/-- Witness for C9: a concrete wrap from position 15 to 0, and a concrete
one-shot off transition. -/
theorem claim9_animation_position_witness :
    (animTick ⟨2, 15, 0, 200⟩ 300).1.masterPosition = (if (15 : Int) + 1 = 16 then 0 else 15 + 1) ∧
    (animTick ⟨0, 5, 0, 200⟩ 300).1.masterPosition = -1 ∧
    animTick ⟨0, -1, 0, 200⟩ 300 = (⟨0, -1, 0, 200⟩, []) := by
  refine ⟨claim9_animation_position.2.1 ⟨2, 15, 0, 200⟩ 300 (by decide) (by norm_num)
      (by norm_num) (by norm_num [delayFor]),
    (claim9_animation_position.2.2.2.1 ⟨0, 5, 0, 200⟩ 300 rfl (by norm_num)).1,
    claim9_animation_position.2.2.2.2 ⟨0, -1, 0, 200⟩ 300 rfl rfl⟩

end PLTN

